import Mathlib

/-!
Verification of the ToDo-list-app backend (Express + Mongoose) against its
natural-language specification.  The JavaScript request handlers in
`Backend/routes/task.js`, `Backend/routes/user.js`, `Backend/routes/auth.js`
and the middleware `Backend/middleware/auth.js` are shallowly embedded as
pure Lean functions over an explicit store; the Mongoose schemas of
`Backend/models/task.js` and `Backend/models/user.js` supply the validation
rules (trim setters, length bounds, status enumeration, lowercase email).
-/

/-- Whitespace recognised by the JavaScript string trim used by the Mongoose
`trim: true` setter (ASCII core of the Unicode white-space class). -/
def isJsSpace (c : Char) : Bool :=
  c = ' ' || c = '\t' || c = '\n' || c = '\r'

/-- JavaScript `String.prototype.trim`: drop leading and trailing whitespace. -/
def jsTrim (s : String) : String :=
  ⟨(((s.data.dropWhile isJsSpace).reverse.dropWhile isJsSpace).reverse)⟩

/-- JavaScript `String.prototype.length` for strings in the basic plane:
number of characters. -/
def jsLen (s : String) : Nat :=
  s.data.length

/-- JavaScript `String.prototype.toLowerCase` (ASCII core), the setter run by
the Mongoose `lowercase: true` option on `userSchema.email`. -/
def lowerStr (s : String) : String :=
  ⟨s.data.map Char.toLower⟩

/-- The closed status enumeration of `taskSchema.status` in
`Backend/models/task.js`: `enum: ['pending', 'in-progress', 'completed']`. -/
def statusEnum : List String :=
  ["pending", "in-progress", "completed"]

/-- A persisted Task document (`Backend/models/task.js`).  `extra` holds any
fields beyond the schema that an update wrote into the document via
`$set: req.body`; `createdAt` is the creation timestamp added by
`timestamps: true`. -/
structure TaskDoc where
  id : Nat
  title : String
  description : String
  status : String
  userId : Nat
  createdAt : Nat
  extra : List (String × String)
deriving DecidableEq, Repr

/-- The Task collection together with the id counter used to mint fresh
document ids. -/
structure TaskDB where
  tasks : List TaskDoc
  nextId : Nat
deriving DecidableEq, Repr

/-- A route `:id` parameter.  `oid n` is a well-formed MongoDB ObjectId
(abstracted to a number), `malformed s` is any string rejected by
`mongoose.Types.ObjectId.isValid`. -/
inductive ReqId where
  | malformed (raw : String)
  | oid (n : Nat)
deriving DecidableEq, Repr

/-- A JSON response body: a single task, a task list, a `{message}` object or
an `{error}` object. -/
inductive Resp where
  | task (t : TaskDoc)
  | tasks (l : List TaskDoc)
  | msg (m : String)
  | err (e : String)
deriving DecidableEq, Repr

/-- The body of `POST /api/tasks` as the handler reads it: `title`,
`description` and `status` keys, each possibly absent (`undefined`). -/
structure CreateBody where
  title : Option String
  description : Option String
  status : Option String
deriving DecidableEq, Repr

/-- Truthiness of an optional string field, as tested by `!title` in the
handler: absent (`undefined`) and the empty string are falsy. -/
def truthy : Option String → Bool
  | none => false
  | some s => !(s = "")

/-- Validation of a string path on save, per the Mongoose schema options
`required: true, trim: true, maxLength`: the trim setter runs first, then
`required` (nonempty) and the length bound are checked. -/
def validSavedString (s : String) (maxLen : Nat) : Bool :=
  !(jsTrim s = "") && jsLen (jsTrim s) ≤ maxLen

/-- Handler of `POST /api/tasks` (`router.post('/')` in
`Backend/routes/task.js`).  Destructures only `title` and `description` from
the body, requires both truthy, then saves
`new Task({title, description, userId})`; the save applies the trim setters,
validates `required`/`maxLength`, and fills `status` with the schema default
`'pending'`.  A Mongoose validation failure is caught and mapped to 400. -/
def createTask (db : TaskDB) (uid : Nat) (now : Nat) (body : CreateBody) :
    (Nat × Resp) × TaskDB :=
  if !truthy body.title || !truthy body.description then
    ((400, Resp.err "Title and description are required"), db)
  else
    let title := body.title.getD ""
    let description := body.description.getD ""
    if validSavedString title 100 && validSavedString description 500 then
      let t : TaskDoc :=
        { id := db.nextId, title := jsTrim title,
          description := jsTrim description, status := "pending",
          userId := uid, createdAt := now, extra := [] }
      ((201, Resp.task t), { tasks := db.tasks ++ [t], nextId := db.nextId + 1 })
    else
      ((400, Resp.err "Task validation failed"), db)

/-- The Mongo query filter built by `GET /api/tasks`: always
`userId: req.user.id`, plus `status` when the query value is one of the three
enumeration values (`if (status && [...].includes(status))`); any other
value, including the falsy empty string, leaves the filter without a status
clause. -/
def matchesListQuery (uid : Nat) (statusQ : Option String) (t : TaskDoc) : Bool :=
  t.userId = uid &&
    (match statusQ with
     | none => true
     | some s => if truthy (some s) && statusEnum.contains s then t.status = s else true)

/-- The `sort({createdAt: -1})` order: newer (larger `createdAt`) first. -/
def newerFirst (a b : TaskDoc) : Prop :=
  b.createdAt ≤ a.createdAt

instance : DecidableRel newerFirst := fun a b =>
  inferInstanceAs (Decidable (b.createdAt ≤ a.createdAt))

instance : IsTotal TaskDoc newerFirst :=
  ⟨fun a b => Nat.le_total b.createdAt a.createdAt⟩

instance : IsTrans TaskDoc newerFirst :=
  ⟨fun a b c h1 h2 => by
    unfold newerFirst at *
    exact Nat.le_trans h2 h1⟩

/-- Handler of `GET /api/tasks` (`router.get('/')`):
`Task.find(query).sort({createdAt: -1})` over the caller's tasks. -/
def listTasks (db : TaskDB) (uid : Nat) (statusQ : Option String) : Nat × Resp :=
  (200, Resp.tasks (List.insertionSort newerFirst
    (db.tasks.filter (matchesListQuery uid statusQ))))

/-- The owner-scoped lookup `{_id: req.params.id, userId: req.user.id}` used
by the get, update and delete handlers. -/
def ownedBy (i uid : Nat) (t : TaskDoc) : Bool :=
  t.id = i && t.userId = uid

/-- Handler of `GET /api/tasks/:id` (`router.get('/:id')`): 400 on a
malformed ObjectId, otherwise `findOne({_id, userId})`; a missing or
foreign-owned task yields the same 404. -/
def getTaskById (db : TaskDB) (uid : Nat) (rid : ReqId) : Nat × Resp :=
  match rid with
  | .malformed _ => (400, Resp.err "Invalid task ID")
  | .oid i =>
    match db.tasks.find? (ownedBy i uid) with
    | none => (404, Resp.err "Task not found")
    | some t => (200, Resp.task t)

/-- The body of `PUT /api/tasks/:id` as `$set: req.body` consumes it: the
three schema fields and `userId`, each possibly absent, plus arbitrary
further key/value pairs (`extra`) that the handler never inspects. -/
structure UpdateBody where
  title : Option String
  description : Option String
  status : Option String
  userId : Option Nat
  extra : List (String × String)
deriving DecidableEq, Repr

/-- Set one key in a document's extra-field association list: overwrite the
existing binding or append a new one. -/
def setKey (l : List (String × String)) (kv : String × String) :
    List (String × String) :=
  if l.any (fun p => p.1 = kv.1) then
    l.map (fun p => if p.1 = kv.1 then kv else p)
  else
    l ++ [kv]

/-- Apply `$set: req.body` to a matched document: present schema fields take
the supplied value (after the trim setter for title/description), absent
fields are untouched, and every unknown body field is written verbatim. -/
def applySet (t : TaskDoc) (body : UpdateBody) : TaskDoc :=
  { t with
    title := (body.title.map jsTrim).getD t.title
    description := (body.description.map jsTrim).getD t.description
    status := body.status.getD t.status
    userId := body.userId.getD t.userId
    extra := body.extra.foldl setKey t.extra }

/-- The `runValidators: true` check on the paths set by the update: trimmed
title nonempty and at most 100 characters when present, trimmed description
nonempty and at most 500 when present, status in the enumeration when
present. -/
def updateValidates (body : UpdateBody) : Bool :=
  (match body.title with | none => true | some s => validSavedString s 100) &&
  (match body.description with | none => true | some s => validSavedString s 500) &&
  (match body.status with | none => true | some s => statusEnum.contains s)

/-- Replace the first task matched by the predicate, leaving the rest of the
collection as it was (`findOneAndUpdate` touches one document). -/
def updateFirst (p : TaskDoc → Bool) (f : TaskDoc → TaskDoc) : List TaskDoc → List TaskDoc
  | [] => []
  | t :: ts => if p t then f t :: ts else t :: updateFirst p f ts

/-- Handler of `PUT /api/tasks/:id` (`router.put('/:id')`): 400 on a
malformed ObjectId; 400 `Invalid status value` when the body's status is
truthy and outside the enumeration; then
`findOneAndUpdate({_id, userId}, {$set: req.body}, {new, runValidators})` —
update validators run before the write (a failure is caught as 400), a
missing or foreign-owned id yields 404, and otherwise the merged document is
returned. -/
def updateTask (db : TaskDB) (uid : Nat) (rid : ReqId) (body : UpdateBody) :
    (Nat × Resp) × TaskDB :=
  match rid with
  | .malformed _ => ((400, Resp.err "Invalid task ID"), db)
  | .oid i =>
    if truthy body.status && !(statusEnum.contains (body.status.getD "")) then
      ((400, Resp.err "Invalid status value"), db)
    else if !updateValidates body then
      ((400, Resp.err "Validation failed"), db)
    else
      match db.tasks.find? (ownedBy i uid) with
      | none => ((404, Resp.err "Task not found"), db)
      | some t =>
        ((200, Resp.task (applySet t body)),
         { db with tasks := updateFirst (ownedBy i uid) (fun u => applySet u body) db.tasks })

/-- Handler of `DELETE /api/tasks/:id` (`router.delete('/:id')`): 400 on a
malformed ObjectId, otherwise `findOneAndDelete({_id, userId})`; 404 when
nothing matches, else the matched document is removed and a confirmation
message returned. -/
def deleteTask (db : TaskDB) (uid : Nat) (rid : ReqId) :
    (Nat × Resp) × TaskDB :=
  match rid with
  | .malformed _ => ((400, Resp.err "Invalid task ID"), db)
  | .oid i =>
    match db.tasks.find? (ownedBy i uid) with
    | none => ((404, Resp.err "Task not found"), db)
    | some _ =>
      ((200, Resp.msg "Task deleted successfully"),
       { db with tasks := db.tasks.eraseP (ownedBy i uid) })

/-- A bcrypt hash, modelled abstractly as the hashed password together with
its random salt; `bcrypt.compare` succeeds exactly on the original
password. -/
structure BcryptHash where
  pw : String
  salt : Nat
deriving DecidableEq, Repr

/-- Model of `bcrypt.compare(password, user.password)`. -/
def bcryptCompare (p : String) (h : BcryptHash) : Bool :=
  p = h.pw

/-- A persisted User document (`Backend/models/user.js`); `email` is stored
lowercased by the `lowercase: true` setter. -/
structure UserDoc where
  id : Nat
  firstName : String
  lastName : String
  email : String
  password : BcryptHash
deriving DecidableEq, Repr

/-- The User collection with the id counter for fresh document ids. -/
structure UserDB where
  users : List UserDoc
  nextUid : Nat
deriving DecidableEq, Repr

/-- The body of `POST /api/users`, each key possibly absent. -/
structure RegisterBody where
  firstName : Option String
  lastName : Option String
  email : Option String
  password : Option String
deriving DecidableEq, Repr

/-- Shape check behind `Joi.string().email()` (core shape: a nonempty local
part, one `@`, and a domain of at least two nonempty dot-separated labels,
no whitespace). -/
def emailShape (s : String) : Bool :=
  match s.data.splitOn '@' with
  | [l, d] =>
    !(l = []) && !(l.any isJsSpace) && !(d.any isJsSpace) &&
      (d.splitOn '.').length ≥ 2 && (d.splitOn '.').all (fun part => !(part = []))
  | _ => false

/-- The default policy of `joi-password-complexity`: length 8–26 with at
least one lowercase letter, one uppercase letter, one digit and one symbol
(non-alphanumeric character). -/
def passwordComplexityOk (s : String) : Bool :=
  8 ≤ jsLen s && jsLen s ≤ 26 &&
    s.data.any (fun c => c.isLower) && s.data.any (fun c => c.isUpper) &&
    s.data.any (fun c => c.isDigit) && s.data.any (fun c => !c.isAlphanum)

/-- The `validateUser` Joi schema of `Backend/models/user.js`: keys checked
in declaration order with abort-on-first-error, names 2–50 characters,
email of valid shape, password satisfying the complexity policy.  Returns
the first violated rule's message, or none when the body is valid. -/
def validateUser (b : RegisterBody) : Option String :=
  match b.firstName with
  | none => some "firstName is required"
  | some fn =>
    if jsLen fn < 2 || jsLen fn > 50 then
      some "firstName length must be between 2 and 50 characters"
    else
      match b.lastName with
      | none => some "lastName is required"
      | some ln =>
        if jsLen ln < 2 || jsLen ln > 50 then
          some "lastName length must be between 2 and 50 characters"
        else
          match b.email with
          | none => some "email is required"
          | some e =>
            if !emailShape e then some "email must be a valid email"
            else
              match b.password with
              | none => some "password is required"
              | some p =>
                if !passwordComplexityOk p then
                  some "password does not meet the complexity requirements"
                else none

/-- Handler of `POST /api/users` (`router.post('/')` in
`Backend/routes/user.js`): Joi validation first (400 on the first violated
rule), then `User.findOne({email})` — Mongoose runs the `lowercase` setter
on both the stored value and the query filter value, so the uniqueness check
is case-insensitive — 409 when a user with that email exists, otherwise the
new user is saved with the bcrypt-hashed password and lowercased email. -/
def register (db : UserDB) (b : RegisterBody) (salt : Nat) :
    (Nat × Resp) × UserDB :=
  match validateUser b with
  | some e => ((400, Resp.err e), db)
  | none =>
    match db.users.find? (fun u => u.email = lowerStr (b.email.getD "")) with
    | some _ => ((409, Resp.err "User with given email already exists"), db)
    | none =>
      let u : UserDoc :=
        { id := db.nextUid, firstName := b.firstName.getD "",
          lastName := b.lastName.getD "",
          email := lowerStr (b.email.getD ""),
          password := { pw := b.password.getD "", salt := salt } }
      ((201, Resp.msg "User created successfully"),
       { users := db.users ++ [u], nextUid := db.nextUid + 1 })

/-- A signed JSON Web Token as minted by `jwt.sign({id}, secret,
{expiresIn: '7d'})`: the payload id, the issuance time, and the secret the
signature was produced with. -/
structure Jwt where
  id : Nat
  iat : Nat
  secret : String
deriving DecidableEq, Repr

/-- The `exp` claim written by `expiresIn: '7d'`: issuance time plus seven
days in seconds. -/
def jwtExp (t : Jwt) : Nat :=
  t.iat + 604800

/-- The result of `POST /api/auth`: a token with a message, or an error. -/
inductive LoginResp where
  | ok (token : Jwt) (m : String)
  | err (e : String)
deriving DecidableEq, Repr

/-- Handler of `POST /api/auth` (`router.post('/')` in
`Backend/routes/auth.js`): look up the user by email (lowercase setter runs
on the query filter), 404 `Invalid email or password` when absent; compare
the password with `bcrypt.compare`, the same 404 on mismatch; on match mint
a 7-day token signed with the server secret. -/
def login (db : UserDB) (email pw : String) (now : Nat) (secret : String) :
    Nat × LoginResp :=
  match db.users.find? (fun u => u.email = lowerStr email) with
  | none => (404, LoginResp.err "Invalid email or password")
  | some u =>
    if bcryptCompare pw u.password then
      (200, LoginResp.ok { id := u.id, iat := now, secret := secret } "Login successful")
    else
      (404, LoginResp.err "Invalid email or password")

/-- The `Authorization` header of a protected request: absent, a string not
of the shape `Bearer <token>`, or a bearer token (carried in decoded
form). -/
inductive AuthHeader where
  | missing
  | malformed (raw : String)
  | bearer (tok : Jwt)
deriving DecidableEq, Repr

/-- The `jwt.verify(token, secret)` check: the signature must have been
produced with the server secret and the `exp` claim must lie in the
future. -/
def verifyJwt (secret : String) (now : Nat) (t : Jwt) : Bool :=
  t.secret = secret && now < jwtExp t

/-- The `auth` middleware of `Backend/middleware/auth.js`: a missing header
or one not starting with `Bearer ` yields 401 `Authentication required`;
otherwise the token is verified, a failed signature or expired token yields
401 `Invalid or expired token`, and on success the payload id is attached to
the request. -/
def authGate (secret : String) (now : Nat) (h : AuthHeader) :
    Except (Nat × Resp) Nat :=
  match h with
  | .missing => .error (401, Resp.err "Authentication required")
  | .malformed _ => .error (401, Resp.err "Authentication required")
  | .bearer t =>
    if verifyJwt secret now t then .ok t.id
    else .error (401, Resp.err "Invalid or expired token")

/-- A protected route: the handler body runs only when the `auth` middleware
called `next()`, with the identity the middleware resolved. -/
def runProtected (secret : String) (now : Nat) (h : AuthHeader)
    (handler : Nat → Nat × Resp) : Nat × Resp :=
  match authGate secret now h with
  | .error e => e
  | .ok uid => handler uid

/-- A concrete task owned by identity 1, used to instantiate theorems. -/
def sampleTask : TaskDoc :=
  { id := 0, title := "T", description := "D", status := "pending",
    userId := 1, createdAt := 5, extra := [] }

/-- A concrete task store holding only `sampleTask`. -/
def sampleTaskDB : TaskDB :=
  { tasks := [sampleTask], nextId := 1 }

/-- A concrete registered user with a lowercased stored email. -/
def sampleUser : UserDoc :=
  { id := 1, firstName := "Ann", lastName := "Lee", email := "a@x.com",
    password := { pw := "Abcd123!", salt := 10 } }

/-- A concrete identity store holding only `sampleUser`. -/
def sampleUserDB : UserDB :=
  { users := [sampleUser], nextUid := 2 }

/-- A registration body reusing the stored email up to letter case. -/
def sampleDupBody : RegisterBody :=
  { firstName := some "Bob", lastName := some "Roy",
    email := some "A@X.com", password := some "Abcd123!" }

/-- A partial update body: new title, new status, an unknown extra field,
description left out. -/
def sampleMergeBody : UpdateBody :=
  { title := some "New", description := none, status := some "completed",
    userId := none, extra := [("priority", "high")] }

/-- An update body whose only content is a new owning identity. -/
def sampleOwnerBody : UpdateBody :=
  { title := none, description := none, status := none,
    userId := some 2, extra := [] }

theorem ne_empty_of_len_pos {s : String} (h : 0 < jsLen s) : s ≠ "" := by
  intro he
  subst he
  simp [jsLen] at h

theorem truthy_some_of_ne {s : String} (h : s ≠ "") : truthy (some s) = true := by
  simp [truthy, h]

theorem validSavedString_of {s : String} {m : Nat}
    (htrim : jsTrim s = s) (hpos : 0 < jsLen s) (hle : jsLen s ≤ m) :
    validSavedString s m = true := by
  simp [validSavedString, htrim, hle, ne_empty_of_len_pos hpos]

theorem validSavedString_false_of_long {s : String} {m : Nat}
    (htrim : jsTrim s = s) (hgt : m < jsLen s) :
    validSavedString s m = false := by
  simp [validSavedString, htrim, Nat.not_le.mpr hgt]

theorem find?_ownedBy_mem {l : List TaskDoc} {u : TaskDoc} {j uid : Nat}
    (hids : (l.map TaskDoc.id).Nodup) (hu : u ∈ l) (hid : u.id = j)
    (huid : u.userId = uid) :
    l.find? (ownedBy j uid) = some u := by
  have hsome : (l.find? (ownedBy j uid)).isSome :=
    List.find?_isSome.mpr ⟨u, hu, by simp [ownedBy, hid, huid]⟩
  obtain ⟨v, hv⟩ := Option.isSome_iff_exists.mp hsome
  have hvm := List.mem_of_find?_eq_some hv
  have hvp := List.find?_some hv
  simp [ownedBy] at hvp
  have hvu : v = u := List.inj_on_of_nodup_map hids hvm hu (by rw [hvp.1, hid])
  rw [hv, hvu]

theorem find?_ownedBy_none {l : List TaskDoc} {j uid : Nat}
    (h : ∀ u ∈ l, ¬(u.id = j ∧ u.userId = uid)) :
    l.find? (ownedBy j uid) = none :=
  List.find?_eq_none.mpr fun u hu => by simpa [ownedBy] using h u hu

/-- C2: for every login request, the failure response for an unregistered
email and the failure response for a registered email with a wrong password
are identical — both are status 404 with the error message
`Invalid email or password` — so the two runs are indistinguishable to the
caller. -/
theorem login_failure_uniform (db : UserDB) (e1 p1 e2 p2 : String)
    (now1 now2 : Nat) (sec1 sec2 : String) (u : UserDoc)
    (h1 : db.users.find? (fun w => w.email = lowerStr e1) = none)
    (h2 : db.users.find? (fun w => w.email = lowerStr e2) = some u)
    (h3 : bcryptCompare p2 u.password = false) :
    login db e1 p1 now1 sec1 = (404, LoginResp.err "Invalid email or password")
    ∧ login db e2 p2 now2 sec2 = (404, LoginResp.err "Invalid email or password")
    ∧ login db e1 p1 now1 sec1 = login db e2 p2 now2 sec2 := by
  refine ⟨?_, ?_, ?_⟩
  · simp [login, h1]
  · simp [login, h2, h3]
  · simp [login, h1, h2, h3]

/-- Witness for C2: in the concrete store holding only `sampleUser`, a login
with an unknown email and a login with the stored email but a wrong password
produce the same response. -/
theorem login_failure_uniform_witness :
    sampleUserDB.users.find? (fun w => w.email = lowerStr "b@x.com") = none
    ∧ bcryptCompare "wrong" sampleUser.password = false
    ∧ login sampleUserDB "b@x.com" "pw" 3 "k" = login sampleUserDB "a@x.com" "wrong" 9 "k" :=
  ⟨by decide, by decide,
   (login_failure_uniform sampleUserDB "b@x.com" "pw" "a@x.com" "wrong" 3 9 "k" "k"
     sampleUser (by decide) (by decide) (by decide)).2.2⟩

/-- Counterexample to C3 as stated: the Access Gate rejects a request with no
`Authorization` header with the message `Authentication required` (capital A),
which is not the claimed literal message `authentication required`. -/
theorem auth_gate_message_cex :
    runProtected "k" 0 AuthHeader.missing (fun _ => (200, Resp.msg "ok"))
      = (401, Resp.err "Authentication required")
    ∧ (401, Resp.err "Authentication required")
        ≠ ((401 : Nat), Resp.err "authentication required")
    ∧ runProtected "k" 0 (AuthHeader.bearer { id := 1, iat := 0, secret := "x" })
        (fun _ => (200, Resp.msg "ok"))
      = (401, Resp.err "Invalid or expired token")
    ∧ (401, Resp.err "Invalid or expired token")
        ≠ ((401 : Nat), Resp.err "invalid or expired token") := by
  refine ⟨rfl, by decide, rfl, by decide⟩

/-- C3 (amended: the actual messages are `Authentication required` and
`Invalid or expired token`): a protected request with a missing or malformed
`Authorization` header fails with 401 `Authentication required`; a
well-shaped bearer token that fails verification — in particular one signed
with the server secret whose 7-day expiry has passed — fails with 401 and the
distinct message `Invalid or expired token`; the protected handler runs only
when verification succeeds, with the identity of the token. -/
theorem auth_gate_behaviour (secret : String) (now : Nat)
    (handler : Nat → Nat × Resp) :
    runProtected secret now AuthHeader.missing handler
      = (401, Resp.err "Authentication required")
    ∧ (∀ raw : String, runProtected secret now (AuthHeader.malformed raw) handler
        = (401, Resp.err "Authentication required"))
    ∧ (∀ t : Jwt, verifyJwt secret now t = false →
        runProtected secret now (AuthHeader.bearer t) handler
          = (401, Resp.err "Invalid or expired token"))
    ∧ (∀ t : Jwt, t.secret = secret → jwtExp t ≤ now →
        runProtected secret now (AuthHeader.bearer t) handler
          = (401, Resp.err "Invalid or expired token"))
    ∧ (∀ t : Jwt, verifyJwt secret now t = true →
        runProtected secret now (AuthHeader.bearer t) handler = handler t.id) := by
  refine ⟨rfl, fun raw => rfl, fun t hv => ?_, fun t hs he => ?_, fun t hv => ?_⟩
  · simp [runProtected, authGate, hv]
  · have hv : verifyJwt secret now t = false := by
      simp [verifyJwt, hs]
      omega
    simp [runProtected, authGate, hv]
  · simp [runProtected, authGate, hv]

/-- C4 evaluated at the failing input: creating a task with the body
`{title: "T", description: "D", status: "completed"}` stores status
`pending` — the handler destructures only title and description, so the
supplied status is dropped, contradicting the documented create contract. -/
theorem create_drops_supplied_status :
    (createTask { tasks := [], nextId := 0 } 7 100
        { title := some "T", description := some "D", status := some "completed" }).1
      = (201, Resp.task (TaskDoc.mk 0 "T" "D" "pending" 7 100 []))
    ∧ (createTask { tasks := [], nextId := 0 } 7 100
        { title := some "T", description := some "D", status := some "completed" }).1.2
        ≠ Resp.task (TaskDoc.mk 0 "T" "D" "completed" 7 100 []) := by
  refine ⟨by decide, by decide⟩

/-- C1: for every task t created by identity A and every caller resolved to a
different identity B, Get by id on the id of t fails with 404
`Task not found` — the same response as for an id matching no task at all, so
the response does not distinguish the existence of t from a nonexistent id —
and Get returns 200 with a task exactly when that task exists in the store
and is owned by the caller. -/
theorem getTask_owner_scoping (db : TaskDB) (a b : Nat) (t : TaskDoc)
    (hmem : t ∈ db.tasks) (hown : t.userId = a) (hne : b ≠ a)
    (hids : (db.tasks.map TaskDoc.id).Nodup) :
    getTaskById db b (ReqId.oid t.id) = (404, Resp.err "Task not found")
    ∧ (∀ j : Nat, (∀ u ∈ db.tasks, ¬(u.id = j ∧ u.userId = b)) →
        getTaskById db b (ReqId.oid j) = (404, Resp.err "Task not found"))
    ∧ (∀ (j : Nat) (u : TaskDoc),
        getTaskById db b (ReqId.oid j) = (200, Resp.task u) ↔
          (u ∈ db.tasks ∧ u.id = j ∧ u.userId = b)) := by
  have habs : ∀ u ∈ db.tasks, ¬(u.id = t.id ∧ u.userId = b) := by
    rintro u hu ⟨hid, huid⟩
    have hut : u = t := List.inj_on_of_nodup_map hids hu hmem hid
    subst hut
    rw [hown] at huid
    exact hne huid.symm
  refine ⟨?_, ?_, ?_⟩
  · simp [getTaskById, find?_ownedBy_none habs]
  · intro j hj
    simp [getTaskById, find?_ownedBy_none hj]
  · intro j u
    constructor
    · intro h
      cases hfind : db.tasks.find? (ownedBy j b) with
      | none => simp [getTaskById, hfind] at h
      | some v =>
        simp [getTaskById, hfind] at h
        subst h
        have hvp := List.find?_some hfind
        simp [ownedBy] at hvp
        exact ⟨List.mem_of_find?_eq_some hfind, hvp.1, hvp.2⟩
    · rintro ⟨hu, hid, huid⟩
      simp [getTaskById, find?_ownedBy_mem hids hu hid huid]

/-- Witness for C1: in the concrete store, identity 2 requesting the task of
identity 1 gets the indistinct 404. -/
theorem getTask_owner_scoping_witness :
    (2 : Nat) ≠ 1
    ∧ getTaskById sampleTaskDB 2 (ReqId.oid sampleTask.id)
        = (404, Resp.err "Task not found") :=
  ⟨by decide,
   (getTask_owner_scoping sampleTaskDB 1 2 sampleTask (by decide) (by decide)
     (by decide) (by decide)).1⟩

/-- C9: for every task owned by the caller, the first Delete on its id
succeeds with 200 and the confirmation message and removes exactly that task
from the store, and a second Delete on the same id fails with 404
`Task not found` while leaving the store unchanged. -/
theorem delete_then_delete_again (db : TaskDB) (uid : Nat) (t : TaskDoc)
    (hmem : t ∈ db.tasks) (hown : t.userId = uid)
    (hids : (db.tasks.map TaskDoc.id).Nodup) :
    (deleteTask db uid (ReqId.oid t.id)).1 = (200, Resp.msg "Task deleted successfully")
    ∧ t ∉ ((deleteTask db uid (ReqId.oid t.id)).2).tasks
    ∧ db.tasks.Perm (t :: ((deleteTask db uid (ReqId.oid t.id)).2).tasks)
    ∧ deleteTask ((deleteTask db uid (ReqId.oid t.id)).2) uid (ReqId.oid t.id)
        = ((404, Resp.err "Task not found"), (deleteTask db uid (ReqId.oid t.id)).2) := by
  have hfind : db.tasks.find? (ownedBy t.id uid) = some t :=
    find?_ownedBy_mem hids hmem rfl hown
  have hp : ownedBy t.id uid t = true := by simp [ownedBy, hown]
  have h1 : deleteTask db uid (ReqId.oid t.id)
      = ((200, Resp.msg "Task deleted successfully"),
         { db with tasks := db.tasks.eraseP (ownedBy t.id uid) }) := by
    simp [deleteTask, hfind]
  obtain ⟨v, l₁, l₂, hl₁, hpa, heq, herase⟩ := List.exists_of_eraseP hmem hp
  have hvmem : v ∈ db.tasks := by
    rw [heq]
    simp
  have hvt : v = t := by
    apply List.inj_on_of_nodup_map hids hvmem hmem
    simp [ownedBy] at hpa
    rw [hpa.1]
  rw [hvt] at heq
  have hnd : db.tasks.Nodup := List.Nodup.of_map TaskDoc.id hids
  rw [heq] at hnd
  have hmid : t ∉ l₁ ++ l₂ := (List.nodup_cons.mp (List.nodup_middle.mp hnd)).1
  have htasks2 : ((deleteTask db uid (ReqId.oid t.id)).2).tasks = l₁ ++ l₂ := by
    rw [h1]
    exact herase
  have hnone : (l₁ ++ l₂).find? (ownedBy t.id uid) = none := by
    apply find?_ownedBy_none
    rintro u hu ⟨hid, huid⟩
    have humem : u ∈ db.tasks := by
      rw [heq]
      rcases List.mem_append.mp hu with hL | hR
      · exact List.mem_append_left _ hL
      · exact List.mem_append_right _ (List.mem_cons_of_mem _ hR)
    have hut : u = t := List.inj_on_of_nodup_map hids humem hmem hid
    subst hut
    exact hmid hu
  refine ⟨by rw [h1], ?_, ?_, ?_⟩
  · rw [htasks2]
    exact hmid
  · rw [htasks2, heq]
    exact List.perm_middle
  · rw [h1]
    simp only [deleteTask]
    rw [herase, hnone]

/-- Witness for C9: the single task of the concrete store is deleted with a
200 confirmation. -/
theorem delete_then_delete_again_witness :
    sampleTask.userId = 1
    ∧ (deleteTask sampleTaskDB 1 (ReqId.oid sampleTask.id)).1
        = (200, Resp.msg "Task deleted successfully") :=
  ⟨by decide,
   (delete_then_delete_again sampleTaskDB 1 sampleTask (by decide) (by decide)
     (by decide)).1⟩

/-- C5: for every registered email, a second registration with a body that is
otherwise valid and whose email equals the stored one up to letter case fails
with 409 and the duplicate-email message, and the identity store is returned
unchanged — no new Identity record is created. -/
theorem register_duplicate_email (db : UserDB) (b : RegisterBody) (salt : Nat)
    (u : UserDoc) (hu : u ∈ db.users) (hvalid : validateUser b = none)
    (hlower : u.email = lowerStr (b.email.getD "")) :
    register db b salt = ((409, Resp.err "User with given email already exists"), db) := by
  have hsome : (db.users.find? (fun w => w.email = lowerStr (b.email.getD ""))).isSome :=
    List.find?_isSome.mpr ⟨u, hu, by simp [hlower]⟩
  obtain ⟨v, hv⟩ := Option.isSome_iff_exists.mp hsome
  simp [register, hvalid, hv]

/-- Witness for C5: registering `A@X.com` while `a@x.com` is stored yields
the 409 conflict and leaves the store as it was. -/
theorem register_duplicate_email_witness :
    validateUser sampleDupBody = none
    ∧ register sampleUserDB sampleDupBody 10
        = ((409, Resp.err "User with given email already exists"), sampleUserDB) :=
  ⟨by decide,
   register_duplicate_email sampleUserDB sampleDupBody 10 sampleUser (by decide)
     (by decide) (by decide)⟩

/-- C8: Create Task accepts a title of exactly 100 characters (201) and
rejects one of 101 characters with a 400 ValidationError, and likewise
accepts a description of exactly 500 characters and rejects 501; the title
and description carry no surrounding whitespace, so the trim setter leaves
them as supplied. -/
theorem create_length_boundaries (db : TaskDB) (uid now : Nat) :
    (∀ title descr : String, jsTrim title = title → jsLen title = 100 →
      jsTrim descr = descr → 0 < jsLen descr → jsLen descr ≤ 500 →
      (createTask db uid now
        { title := some title, description := some descr, status := none }).1.1 = 201)
    ∧ (∀ title descr : String, jsTrim title = title → jsLen title = 101 →
        truthy (some descr) = true →
        (createTask db uid now
          { title := some title, description := some descr, status := none }).1.1 = 400)
    ∧ (∀ title descr : String, jsTrim descr = descr → jsLen descr = 500 →
        jsTrim title = title → 0 < jsLen title → jsLen title ≤ 100 →
        (createTask db uid now
          { title := some title, description := some descr, status := none }).1.1 = 201)
    ∧ (∀ title descr : String, jsTrim descr = descr → jsLen descr = 501 →
        truthy (some title) = true →
        (createTask db uid now
          { title := some title, description := some descr, status := none }).1.1 = 400) := by
  refine ⟨?_, ?_, ?_, ?_⟩
  · intro title descr ht hl hdt hdp hdl
    have h1 : truthy (some title) = true :=
      truthy_some_of_ne (ne_empty_of_len_pos (by omega))
    have h2 : truthy (some descr) = true :=
      truthy_some_of_ne (ne_empty_of_len_pos hdp)
    have h3 : validSavedString title 100 = true := validSavedString_of ht (by omega) (by omega)
    have h4 : validSavedString descr 500 = true := validSavedString_of hdt hdp hdl
    simp [createTask, h1, h2, h3, h4]
  · intro title descr ht hl hd
    have h1 : truthy (some title) = true :=
      truthy_some_of_ne (ne_empty_of_len_pos (by omega))
    have h3 : validSavedString title 100 = false :=
      validSavedString_false_of_long ht (by omega)
    simp [createTask, h1, hd, h3]
  · intro title descr hdt hdl ht htp htl
    have h1 : truthy (some title) = true :=
      truthy_some_of_ne (ne_empty_of_len_pos htp)
    have h2 : truthy (some descr) = true :=
      truthy_some_of_ne (ne_empty_of_len_pos (by omega))
    have h3 : validSavedString title 100 = true := validSavedString_of ht htp htl
    have h4 : validSavedString descr 500 = true := validSavedString_of hdt (by omega) (by omega)
    simp [createTask, h1, h2, h3, h4]
  · intro title descr hdt hdl ht
    have h2 : truthy (some descr) = true :=
      truthy_some_of_ne (ne_empty_of_len_pos (by omega))
    have h4 : validSavedString descr 500 = false :=
      validSavedString_false_of_long hdt (by omega)
    simp [createTask, ht, h2, h4]

theorem lookup_append_set (kv : String × String) :
    ∀ l : List (String × String), (∀ p ∈ l, ¬(p.1 = kv.1)) →
      (l ++ [kv]).lookup kv.1 = some kv.2 := by
  intro l
  induction l with
  | nil =>
    intro _
    simp [List.lookup]
  | cons p l ih =>
    intro h
    have hp : ¬(p.1 = kv.1) := h p (List.mem_cons_self p l)
    have hbeq : (kv.1 == p.1) = false := beq_eq_false_iff_ne.mpr (fun he => hp he.symm)
    simp only [List.cons_append, List.lookup, hbeq]
    exact ih (fun q hq => h q (List.mem_cons_of_mem p hq))

theorem lookup_map_set (kv : String × String) :
    ∀ l : List (String × String), l.any (fun p => p.1 = kv.1) = true →
      (l.map (fun p => if p.1 = kv.1 then kv else p)).lookup kv.1 = some kv.2 := by
  intro l
  induction l with
  | nil =>
    intro h
    simp at h
  | cons p l ih =>
    intro h
    by_cases hp : p.1 = kv.1
    · rw [List.map_cons, if_pos hp]
      simp [List.lookup]
    · have hbeq : (kv.1 == p.1) = false := beq_eq_false_iff_ne.mpr (fun he => hp he.symm)
      rw [List.map_cons, if_neg hp]
      simp only [List.lookup, hbeq]
      apply ih
      simpa [hp] using h

theorem lookup_append_keep (kv : String × String) (k : String) (hne : k ≠ kv.1) :
    ∀ l : List (String × String), (l ++ [kv]).lookup k = l.lookup k := by
  intro l
  induction l with
  | nil =>
    simp [List.lookup, beq_eq_false_iff_ne.mpr hne]
  | cons p l ih =>
    cases hbeq : (k == p.1) with
    | true => simp only [List.cons_append, List.lookup, hbeq]
    | false =>
      simp only [List.cons_append, List.lookup, hbeq]
      exact ih

theorem lookup_map_keep (kv : String × String) (k : String) (hne : k ≠ kv.1) :
    ∀ l : List (String × String),
      (l.map (fun p => if p.1 = kv.1 then kv else p)).lookup k = l.lookup k := by
  intro l
  induction l with
  | nil => rfl
  | cons p l ih =>
    by_cases hp : p.1 = kv.1
    · have h1 : (k == kv.1) = false := beq_eq_false_iff_ne.mpr hne
      have h2 : (k == p.1) = false := beq_eq_false_iff_ne.mpr (by rw [hp]; exact hne)
      rw [List.map_cons, if_pos hp]
      simp only [List.lookup, h1, h2]
      exact ih
    · rw [List.map_cons, if_neg hp]
      cases hbeq : (k == p.1) with
      | true => simp only [List.lookup, hbeq]
      | false =>
        simp only [List.lookup, hbeq]
        exact ih

theorem lookup_setKey_self (l : List (String × String)) (kv : String × String) :
    (setKey l kv).lookup kv.1 = some kv.2 := by
  by_cases h : l.any (fun p => p.1 = kv.1) = true
  · simp only [setKey, h, if_true]
    exact lookup_map_set kv l h
  · have h' : l.any (fun p => p.1 = kv.1) = false := by
      revert h
      cases l.any (fun p => p.1 = kv.1) <;> simp
    simp only [setKey, h', Bool.false_eq_true, if_false]
    exact lookup_append_set kv l (by simpa using List.any_eq_false.mp h')

theorem lookup_setKey_keep (l : List (String × String)) (kv : String × String)
    (k : String) (hne : k ≠ kv.1) :
    (setKey l kv).lookup k = l.lookup k := by
  by_cases h : l.any (fun p => p.1 = kv.1) = true
  · simp only [setKey, h, if_true]
    exact lookup_map_keep kv k hne l
  · have h' : l.any (fun p => p.1 = kv.1) = false := by
      revert h
      cases l.any (fun p => p.1 = kv.1) <;> simp
    simp only [setKey, h', Bool.false_eq_true, if_false]
    exact lookup_append_keep kv k hne l

theorem foldl_setKey_keep (k : String) :
    ∀ (ext acc : List (String × String)), (∀ p ∈ ext, ¬(p.1 = k)) →
      (ext.foldl setKey acc).lookup k = acc.lookup k := by
  intro ext
  induction ext with
  | nil =>
    intro acc _
    rfl
  | cons e ext ih =>
    intro acc h
    rw [List.foldl_cons, ih (setKey acc e) (fun q hq => h q (List.mem_cons_of_mem e hq))]
    exact lookup_setKey_keep acc e k (fun he => h e (List.mem_cons_self e ext) he.symm)

theorem foldl_setKey_lookup :
    ∀ (ext acc : List (String × String)), (ext.map Prod.fst).Nodup →
      ∀ kv ∈ ext, (ext.foldl setKey acc).lookup kv.1 = some kv.2 := by
  intro ext
  induction ext with
  | nil =>
    intro acc _ kv hkv
    simp at hkv
  | cons e ext ih =>
    intro acc hnd kv hkv
    rw [List.map_cons] at hnd
    rw [List.foldl_cons]
    rcases List.mem_cons.mp hkv with he | hm
    · subst he
      have hkeys : ∀ p ∈ ext, ¬(p.1 = kv.1) := by
        intro p hp hpe
        exact (List.nodup_cons.mp hnd).1 (List.mem_map.mpr ⟨p, hp, hpe⟩)
      rw [foldl_setKey_keep kv.1 ext (setKey acc kv) hkeys]
      exact lookup_setKey_self acc kv
    · exact ih (setKey acc e) (List.nodup_cons.mp hnd).2 kv hm

theorem route_status_pass {body : UpdateBody} (hvb : updateValidates body = true) :
    ¬(truthy body.status = true ∧ body.status.getD "" ∉ statusEnum) := by
  have h := hvb
  simp only [updateValidates, Bool.and_eq_true] at h
  obtain ⟨⟨_, _⟩, hvs⟩ := h
  rintro ⟨ht, hnm⟩
  cases hbs : body.status with
  | none =>
    rw [hbs] at ht
    simp [truthy] at ht
  | some s =>
    rw [hbs] at hvs
    have hsmem : s ∈ statusEnum := by simpa using hvs
    rw [hbs] at hnm
    exact hnm hsmem

theorem updateFirst_append {p : TaskDoc → Bool} {f : TaskDoc → TaskDoc} :
    ∀ l₁ : List TaskDoc, (∀ q ∈ l₁, p q = false) → ∀ (x : TaskDoc) (l₂ : List TaskDoc),
      p x = true → updateFirst p f (l₁ ++ x :: l₂) = l₁ ++ f x :: l₂ := by
  intro l₁
  induction l₁ with
  | nil =>
    intro _ x l₂ hx
    simp [updateFirst, hx]
  | cons q l ih =>
    intro h x l₂ hx
    have hq : p q = false := h q (List.mem_cons_self q l)
    simp only [List.cons_append, updateFirst, hq, Bool.false_eq_true, if_false,
      List.cons.injEq, true_and]
    exact ih (fun r hr => h r (List.mem_cons_of_mem q hr)) x l₂ hx

/-- C6: Update has merge-patch semantics.  For a task owned by the caller and
a body passing the update validators, the route returns 200 with the merged
document and replaces only that document in the store; each of title,
description and status absent from the body is unchanged, each present field
takes the supplied value (title and description after the schema trim
setter), and every extra field of the body is persisted verbatim into the
stored document; a body whose status lies outside the enumeration fails with
400 leaving the store unchanged, and an id matching no task owned by the
caller fails with 404 `Task not found`. -/
theorem update_merge_patch (db : TaskDB) (uid : Nat) (t : TaskDoc) (body : UpdateBody)
    (hmem : t ∈ db.tasks) (hown : t.userId = uid)
    (hids : (db.tasks.map TaskDoc.id).Nodup)
    (hvb : updateValidates body = true)
    (hkeys : (body.extra.map Prod.fst).Nodup) :
    updateTask db uid (ReqId.oid t.id) body
      = ((200, Resp.task (applySet t body)),
         { db with tasks := updateFirst (ownedBy t.id uid) (fun u => applySet u body) db.tasks })
    ∧ (body.title = none → (applySet t body).title = t.title)
    ∧ (body.description = none → (applySet t body).description = t.description)
    ∧ (body.status = none → (applySet t body).status = t.status)
    ∧ (body.userId = none → (applySet t body).userId = t.userId)
    ∧ (∀ s, body.title = some s → (applySet t body).title = jsTrim s)
    ∧ (∀ s, body.description = some s → (applySet t body).description = jsTrim s)
    ∧ (∀ s, body.status = some s → (applySet t body).status = s)
    ∧ (∀ kv ∈ body.extra, ((applySet t body).extra).lookup kv.1 = some kv.2)
    ∧ (∀ (b2 : UpdateBody) (i : Nat) (s : String), b2.status = some s →
        statusEnum.contains s = false →
        (updateTask db uid (ReqId.oid i) b2).1.1 = 400
        ∧ (updateTask db uid (ReqId.oid i) b2).2 = db)
    ∧ (∀ i : Nat, (∀ u ∈ db.tasks, ¬(u.id = i ∧ u.userId = uid)) →
        updateTask db uid (ReqId.oid i) body = ((404, Resp.err "Task not found"), db)) := by
  have hroute := route_status_pass hvb
  have hfind : db.tasks.find? (ownedBy t.id uid) = some t :=
    find?_ownedBy_mem hids hmem rfl hown
  refine ⟨?_, ?_, ?_, ?_, ?_, ?_, ?_, ?_, ?_, ?_, ?_⟩
  · simp [updateTask, hroute, hvb, hfind]
  · intro h
    simp [applySet, h]
  · intro h
    simp [applySet, h]
  · intro h
    simp [applySet, h]
  · intro h
    simp [applySet, h]
  · intro s hs
    simp [applySet, hs]
  · intro s hs
    simp [applySet, hs]
  · intro s hs
    simp [applySet, hs]
  · intro kv hkv
    simp only [applySet]
    exact foldl_setKey_lookup body.extra t.extra hkeys kv hkv
  · intro b2 i s hbs hcon
    by_cases hse : s = ""
    · subst hse
      have h1 : truthy b2.status = false := by
        rw [hbs]
        simp [truthy]
      have h2 : updateValidates b2 = false := by
        simp only [updateValidates, hbs]
        rw [(by decide : statusEnum.contains "" = false), Bool.and_false]
      constructor
      · simp [updateTask, h1, h2]
      · simp [updateTask, h1, h2]
    · have hsm : s ∉ statusEnum := by simpa using hcon
      constructor
      · simp [updateTask, hbs, truthy, hse, hsm]
      · simp [updateTask, hbs, truthy, hse, hsm]
  · intro i hno
    have hfindn := find?_ownedBy_none hno
    simp [updateTask, hroute, hvb, hfindn]

/-- Witness for C6: updating the sample task with a new title, status
`completed` and an extra `priority` field succeeds with the merged
document. -/
theorem update_merge_patch_witness :
    updateValidates sampleMergeBody = true
    ∧ updateTask sampleTaskDB 1 (ReqId.oid sampleTask.id) sampleMergeBody
        = ((200, Resp.task (applySet sampleTask sampleMergeBody)),
           { sampleTaskDB with
             tasks := updateFirst (ownedBy sampleTask.id 1)
                        (fun u => applySet u sampleMergeBody) sampleTaskDB.tasks }) :=
  ⟨by decide,
   (update_merge_patch sampleTaskDB 1 sampleTask sampleMergeBody (by decide) (by decide)
     (by decide) (by decide) (by decide)).1⟩

/-- C10: the owning-identity reference of a task is itself mutable through
Update.  For a task owned by caller A, an otherwise valid update whose body
carries a userId naming a different identity B succeeds with 200, the stored
document now has owner B, and the subsequent Get, Update and Delete by A on
that id all fail with 404 `Task not found`. -/
theorem update_reassigns_owner (db : TaskDB) (a b : Nat) (t : TaskDoc) (body : UpdateBody)
    (hmem : t ∈ db.tasks) (hown : t.userId = a) (hne : b ≠ a)
    (hids : (db.tasks.map TaskDoc.id).Nodup)
    (hbu : body.userId = some b)
    (hvb : updateValidates body = true) :
    (updateTask db a (ReqId.oid t.id) body).1 = (200, Resp.task (applySet t body))
    ∧ (applySet t body).userId = b
    ∧ applySet t body ∈ ((updateTask db a (ReqId.oid t.id) body).2).tasks
    ∧ getTaskById ((updateTask db a (ReqId.oid t.id) body).2) a (ReqId.oid t.id)
        = (404, Resp.err "Task not found")
    ∧ (updateTask ((updateTask db a (ReqId.oid t.id) body).2) a (ReqId.oid t.id) body).1
        = (404, Resp.err "Task not found")
    ∧ (deleteTask ((updateTask db a (ReqId.oid t.id) body).2) a (ReqId.oid t.id)).1
        = (404, Resp.err "Task not found") := by
  have hroute := route_status_pass hvb
  have hfind : db.tasks.find? (ownedBy t.id a) = some t :=
    find?_ownedBy_mem hids hmem rfl hown
  have hmain : updateTask db a (ReqId.oid t.id) body
      = ((200, Resp.task (applySet t body)),
         { db with tasks := updateFirst (ownedBy t.id a) (fun u => applySet u body) db.tasks }) := by
    simp [updateTask, hroute, hvb, hfind]
  have hp : ownedBy t.id a t = true := by simp [ownedBy, hown]
  obtain ⟨v, l₁, l₂, hl₁, hpa, heq, _herase⟩ := List.exists_of_eraseP hmem hp
  have hvmem : v ∈ db.tasks := by
    rw [heq]
    simp
  have hvt : v = t := by
    apply List.inj_on_of_nodup_map hids hvmem hmem
    simp [ownedBy] at hpa
    rw [hpa.1]
  rw [hvt] at heq
  have hl₁' : ∀ q ∈ l₁, ownedBy t.id a q = false := by
    intro q hq
    have := hl₁ q hq
    revert this
    cases ownedBy t.id a q <;> simp
  have hupd : updateFirst (ownedBy t.id a) (fun u => applySet u body) db.tasks
      = l₁ ++ applySet t body :: l₂ := by
    rw [heq]
    exact updateFirst_append l₁ hl₁' t l₂ hp
  have hub : (applySet t body).userId = b := by simp [applySet, hbu]
  have hnomatch : ∀ u ∈ l₁ ++ applySet t body :: l₂, ¬(u.id = t.id ∧ u.userId = a) := by
    rintro u hu ⟨hid, huid⟩
    rcases List.mem_append.mp hu with hL | hR
    · have := hl₁' u hL
      simp [ownedBy, hid, huid] at this
    · rcases List.mem_cons.mp hR with he | hT
      · rw [he, hub] at huid
        exact hne huid
      · have humem : u ∈ db.tasks := by
          rw [heq]
          exact List.mem_append_right _ (List.mem_cons_of_mem _ hT)
        have hut : u = t := List.inj_on_of_nodup_map hids humem hmem hid
        subst hut
        have hnd := List.Nodup.of_map TaskDoc.id hids
        rw [heq] at hnd
        exact (List.nodup_cons.mp (List.nodup_middle.mp hnd)).1 (List.mem_append_right _ hT)
  have hfindn : (l₁ ++ applySet t body :: l₂).find? (ownedBy t.id a) = none :=
    find?_ownedBy_none hnomatch
  refine ⟨by rw [hmain], hub, ?_, ?_, ?_, ?_⟩
  · rw [hmain]
    simp only [hupd]
    simp
  · rw [hmain]
    simp only [getTaskById]
    rw [hupd, hfindn]
  · rw [hmain]
    simp only [hupd]
    simp [updateTask, hroute, hvb, hfindn]
  · rw [hmain]
    simp only [hupd]
    simp [deleteTask, hfindn]

/-- Witness for C10: after identity 1 updates its task handing ownership to
identity 2, Get by identity 1 on the same id fails with 404. -/
theorem update_reassigns_owner_witness :
    updateValidates sampleOwnerBody = true
    ∧ getTaskById ((updateTask sampleTaskDB 1 (ReqId.oid sampleTask.id) sampleOwnerBody).2)
        1 (ReqId.oid sampleTask.id) = (404, Resp.err "Task not found") :=
  ⟨by decide,
   (update_reassigns_owner sampleTaskDB 1 2 sampleTask sampleOwnerBody (by decide)
     (by decide) (by decide) (by decide) (by decide) (by decide)).2.2.2.1⟩

theorem matchesListQuery_iff (uid : Nat) (q : Option String) (t : TaskDoc) :
    matchesListQuery uid q t = true ↔
      (t.userId = uid ∧ ∀ s, q = some s → s ∈ statusEnum → t.status = s) := by
  cases q with
  | none => simp [matchesListQuery]
  | some s =>
    by_cases hc : s ∈ statusEnum
    · have hs : ¬(s = "") := by
        intro h
        rw [h] at hc
        revert hc
        decide
      have hc' : statusEnum.contains s = true := by simpa using hc
      simp [matchesListQuery, truthy, hs, hc', hc]
    · have hc' : statusEnum.contains s = false := by simpa using hc
      simp [matchesListQuery, hc', hc]

/-- C7: List returns exactly the tasks of the caller, sorted by creation
timestamp descending (newest first); when the status query parameter is one
of the three enumeration values the result holds exactly the tasks of the
caller with that status, and for any other query value the filter is ignored
and the result is exactly all tasks of the caller. -/
theorem list_tasks_ordered_filtered (db : TaskDB) (uid : Nat) (q : Option String) :
    ∃ l : List TaskDoc,
      listTasks db uid q = (200, Resp.tasks l)
      ∧ l.Perm (db.tasks.filter (matchesListQuery uid q))
      ∧ l.Sorted newerFirst
      ∧ (∀ t : TaskDoc, t ∈ l ↔ (t ∈ db.tasks ∧ t.userId = uid ∧
          ∀ s, q = some s → s ∈ statusEnum → t.status = s))
      ∧ (∀ s, q = some s → s ∉ statusEnum →
          l.Perm (db.tasks.filter (fun t => t.userId = uid))) := by
  refine ⟨List.insertionSort newerFirst (db.tasks.filter (matchesListQuery uid q)),
    rfl, List.perm_insertionSort _ _, List.sorted_insertionSort _ _, ?_, ?_⟩
  · intro t
    rw [(List.perm_insertionSort newerFirst _).mem_iff, List.mem_filter]
    constructor
    · rintro ⟨h1, h2⟩
      obtain ⟨ha, hb⟩ := (matchesListQuery_iff uid q t).mp h2
      exact ⟨h1, ha, hb⟩
    · rintro ⟨h1, h2, h3⟩
      exact ⟨h1, (matchesListQuery_iff uid q t).mpr ⟨h2, h3⟩⟩
  · intro s hq hns
    subst hq
    have hc' : statusEnum.contains s = false := by simpa using hns
    have hfe : db.tasks.filter (matchesListQuery uid (some s))
        = db.tasks.filter (fun t => t.userId = uid) := by
      apply List.filter_congr
      intro t _
      simp only [matchesListQuery, hc', Bool.and_false, Bool.false_eq_true, if_false,
        Bool.and_true]
    exact hfe ▸ List.perm_insertionSort newerFirst _
